import Mathlib

/-!
Shallow embedding of the antithrow eslint-plugin core: the type oracle
(`packages/eslint-plugin/src/rules/utils/result-type.ts`), the unused-result
traversal (`packages/eslint-plugin/src/rules/no-unused-result.ts`) and the
no-unsafe-unwrap rule (member-expression handler, property handler and fix
synthesis). Each definition is translated directly from the TypeScript
source; the host type checker and AST are modelled by explicit data that the
host would supply (a type per queried node, source text per node).
-/

namespace Antithrow

/-! ## Type oracle (result-type.ts) -/

/-- A TypeScript symbol as the rule consumes it: its name and the file names
of its declarations (`symbol.getDeclarations()` mapped through
`decl.getSourceFile().fileName`). -/
structure Symb where
  name : String
  declFileNames : List String
deriving DecidableEq

/-- JS `text.includes(pat)` over character lists: some suffix of the text
starts with the pattern. -/
def charsContain (text pat : List Char) : Bool :=
  match text with
  | [] => pat.isEmpty
  | _ :: rest => pat.isPrefixOf text || charsContain rest pat

/-- JS `fileName.includes(pat)`: the pattern occurs as a substring. -/
def fileIncludes (fileName : String) (pat : String) : Bool :=
  charsContain fileName.data pat.data

/-- JS `text.endsWith(suffix)`. -/
def strEndsWith (text suffix : String) : Bool :=
  suffix.data.isSuffixOf text.data

/-- JS `text.length`. -/
def strLength (text : String) : Nat :=
  text.data.length

/-- JS `text.slice(0, text.length - n)`. -/
def strDropRight (text : String) (n : Nat) : String :=
  ⟨text.data.take (text.data.length - n)⟩

/-- `ts.TypeFlags.Any`. -/
def ANY_FLAG : Nat := 1
/-- `ts.TypeFlags.Unknown`. -/
def UNKNOWN_FLAG : Nat := 2
/-- `ts.TypeFlags.Void`. -/
def VOID_FLAG : Nat := 16384
/-- `ts.TypeFlags.Undefined`. -/
def UNDEFINED_FLAG : Nat := 32768
/-- `ts.TypeFlags.Null`. -/
def NULL_FLAG : Nat := 65536
/-- `ts.TypeFlags.Never`. -/
def NEVER_FLAG : Nat := 131072
/-- `ts.TypeFlags.Object`, the flag carried by ordinary class or interface
instantiations such as `Ok<T, E>`. -/
def OBJECT_FLAG : Nat := 524288
/-- `ts.TypeFlags.BooleanLiteral | ts.TypeFlags.Boolean` stand-in for plain
boolean receivers in examples. -/
def BOOLEAN_FLAG : Nat := 16
/-- `ts.TypeFlags.Number`. -/
def NUMBER_FLAG : Nat := 8

/-- `NULLISH_TYPE_FLAGS = ts.TypeFlags.Null | ts.TypeFlags.Undefined |
ts.TypeFlags.Void` from result-type.ts. -/
def NULLISH_TYPE_FLAGS : Nat := NULL_FLAG ||| UNDEFINED_FLAG ||| VOID_FLAG

/-- The combined mask tested by `collectResultTypes`:
`ts.TypeFlags.Any | ts.TypeFlags.Unknown | ts.TypeFlags.Never |
NULLISH_TYPE_FLAGS`. -/
def STRIPPED_TYPE_FLAGS : Nat :=
  ANY_FLAG ||| UNKNOWN_FLAG ||| NEVER_FLAG ||| NULLISH_TYPE_FLAGS

/-- A `ts.Type` as the oracle consumes it: either a union of member types
(`type.isUnion()` with `type.types`), or a concrete type carrying its
`type.getFlags()` bitmask and optional `type.getSymbol()`. -/
inductive Ty where
  | concrete (flags : Nat) (symbol : Option Symb)
  | union (types : List Ty)

/-- `RESULT_TYPE_NAMES = new Set(["Ok", "Err", "ResultAsync"])`. -/
def RESULT_TYPE_NAMES : List String := ["Ok", "Err", "ResultAsync"]
/-- `FIXABLE_OK_TYPE_NAMES = new Set(["Ok"])`. -/
def FIXABLE_OK_TYPE_NAMES : List String := ["Ok"]
/-- `FIXABLE_ERR_TYPE_NAMES = new Set(["Err"])`. -/
def FIXABLE_ERR_TYPE_NAMES : List String := ["Err"]

/-- `isAntithrowResultTypeSymbol` from result-type.ts: the symbol is named
`Ok`, `Err` or `ResultAsync` and some declaration lives in a file whose name
contains `antithrow`. -/
def isAntithrowResultTypeSymbol (symbol : Symb) : Bool :=
  RESULT_TYPE_NAMES.contains symbol.name &&
    symbol.declFileNames.any (fun fileName => fileIncludes fileName "antithrow")

/-- The mutable `ResultTypeCollection` record threaded through
`collectResultTypes`; `names` models the insertion-ordered JS `Set<string>`. -/
structure ResultTypeCollection where
  hasNonResultMembers : Bool
  names : List String
deriving DecidableEq

/-- JS `Set.add`: append the name unless already present. -/
def addName (name : String) (names : List String) : List String :=
  if names.contains name then names else names ++ [name]

mutual

/-- `collectResultTypes` from result-type.ts. A union iterates its members in
order, threading the collection through the `for` loop. A concrete member
first strips `Any | Unknown | Never | NULLISH_TYPE_FLAGS`; then a missing or
non-antithrow symbol marks `hasNonResultMembers`, and an antithrow outcome
symbol adds its name. -/
def collectResultTypes : Ty → ResultTypeCollection → ResultTypeCollection
  | Ty.union types, collection => collectResultTypeMembers types collection
  | Ty.concrete flags symbol, collection =>
      if flags &&& STRIPPED_TYPE_FLAGS ≠ 0 then
        collection
      else
        match symbol with
        | none => { collection with hasNonResultMembers := true }
        | some s =>
            if isAntithrowResultTypeSymbol s then
              { collection with names := addName s.name collection.names }
            else
              { collection with hasNonResultMembers := true }
termination_by structural t => t

/-- The `for (const member of type.types)` loop of `collectResultTypes`,
threading the collection through the members in order. -/
def collectResultTypeMembers : List Ty → ResultTypeCollection → ResultTypeCollection
  | [], collection => collection
  | t :: rest, collection =>
      collectResultTypeMembers rest (collectResultTypes t collection)
termination_by structural types => types

end

/-- The `ResultVariant` enum. -/
inductive ResultVariant where
  | NONE
  | OK
  | ERR
  | MIXED
deriving DecidableEq

/-- The merge step at the end of `getResultVariant`, applied to the finished
collection: empty name set gives `NONE`; a non-result member gives `MIXED`;
the `ResultAsync` name gives `MIXED`; all names fixable-ok gives `OK`; all
names fixable-err gives `ERR`; otherwise `MIXED`. -/
def variantOfCollection (collection : ResultTypeCollection) : ResultVariant :=
  if collection.names.isEmpty then ResultVariant.NONE
  else if collection.hasNonResultMembers then ResultVariant.MIXED
  else if collection.names.contains "ResultAsync" then ResultVariant.MIXED
  else if collection.names.all (fun name => FIXABLE_OK_TYPE_NAMES.contains name) then
    ResultVariant.OK
  else if collection.names.all (fun name => FIXABLE_ERR_TYPE_NAMES.contains name) then
    ResultVariant.ERR
  else ResultVariant.MIXED

/-- `getResultVariant` from result-type.ts: collect starting from the empty
collection, then merge. -/
def getResultVariant (t : Ty) : ResultVariant :=
  variantOfCollection (collectResultTypes t ⟨false, []⟩)

/-- `isResultType` from result-type.ts. -/
def isResultType (t : Ty) : Bool :=
  getResultVariant t != ResultVariant.NONE

/-! ## Expression statements (no-unused-result.ts) -/

/-- The ESTree expression shapes distinguished by `checkExpression` in
no-unused-result.ts, plus the shapes named by `needsParentheses`. Shapes
that `checkExpression` recurses into are never asked for their type, so only
fall-through shapes (satisfies, assignment, binary, leaf) carry the type the
host checker reports at that node (`checker.getTypeAtLocation`). `leaf`
covers every remaining node kind reaching the fall-through (identifier,
call, member access, literal, await, ...). -/
inductive Expr where
  | unary (op : String) (argument : Expr)
  | conditional (test consequent alternate : Expr)
  | logical (op : String) (left right : Expr)
  | sequence (expressions : List Expr)
  | tsAs (expression : Expr)
  | tsNonNull (expression : Expr)
  | chain (expression : Expr)
  | tsSatisfies (ty : Ty) (expression : Expr)
  | assignment (ty : Ty) (left right : Expr)
  | binary (ty : Ty) (op : String) (left right : Expr)
  | leaf (ty : Ty)

mutual

/-- `checkExpression` from no-unused-result.ts, returning the reported nodes
in report order instead of calling `context.report`. The `switch` recurses
through `void`-less unaries, both conditional branches, both logical
operands, every sequence element, `as`-assertions, non-null assertions and
chain wrappers; every other shape falls through to the type query and is
reported when `isResultType` holds. `TSSatisfiesExpression` has no `case`
in the source switch, so it falls through like a leaf. -/
def checkExpression : Expr → List Expr
  | Expr.unary op argument =>
      if op = "void" then [] else checkExpression argument
  | Expr.conditional _ consequent alternate =>
      checkExpression consequent ++ checkExpression alternate
  | Expr.logical _ left right =>
      checkExpression left ++ checkExpression right
  | Expr.sequence expressions => checkSequenceElements expressions
  | Expr.tsAs expression => checkExpression expression
  | Expr.tsNonNull expression => checkExpression expression
  | Expr.chain expression => checkExpression expression
  | Expr.tsSatisfies ty expression =>
      if isResultType ty then [Expr.tsSatisfies ty expression] else []
  | Expr.assignment ty left right =>
      if isResultType ty then [Expr.assignment ty left right] else []
  | Expr.binary ty op left right =>
      if isResultType ty then [Expr.binary ty op left right] else []
  | Expr.leaf ty =>
      if isResultType ty then [Expr.leaf ty] else []
termination_by structural e => e

/-- The `for (const expr of node.expressions)` loop of the
`SequenceExpression` case, collecting the reports of every element in
order. -/
def checkSequenceElements : List Expr → List Expr
  | [] => []
  | e :: rest => checkExpression e ++ checkSequenceElements rest
termination_by structural es => es

end

/-- `needsParentheses` from no-unused-result.ts. -/
def needsParentheses : Expr → Bool
  | Expr.sequence _ => true
  | Expr.assignment _ _ _ => true
  | Expr.conditional _ _ _ => true
  | Expr.logical _ _ _ => true
  | Expr.binary _ _ _ _ => true
  | Expr.tsAs _ => true
  | Expr.tsSatisfies _ _ => true
  | _ => false

/-- The ADD_VOID suggestion fix from no-unused-result.ts, at the text level:
`insertTextBefore(expr, "void (")` and `insertTextAfter(expr, ")")` when the
statement expression needs parentheses, otherwise
`insertTextBefore(expr, "void ")`. `stmtExprText` is the source text of the
whole statement expression, which the fixer always wraps (the fix closes
over `statement.expression`, not the reported node). -/
def addVoidFixText (stmtExpr : Expr) (stmtExprText : String) : String :=
  if needsParentheses stmtExpr then "void (" ++ stmtExprText ++ ")"
  else "void " ++ stmtExprText

/-- The statement resulting from applying the ADD_VOID fix, as the parser
reads it back: because the fix parenthesizes exactly the low-precedence
shapes, the fixed text always parses as a `void` unary whose argument is the
original statement expression (a parenthesized expression is transparent in
ESTree). -/
def addVoidFixResult (stmtExpr : Expr) : Expr :=
  Expr.unary "void" stmtExpr

/-- One diagnostic of the no-unused-result rule: the reported node together
with the replacement text its ADD_VOID suggestion would produce for the
statement expression. -/
structure UnusedResultFinding where
  node : Expr
  suggestionText : String

/-- The `ExpressionStatement` handler of no-unused-result.ts: run
`checkExpression` on the statement expression and attach the ADD_VOID
suggestion, built from the full statement expression, to every report. -/
def noUnusedResultStatement (stmtExpr : Expr) (stmtExprText : String) :
    List UnusedResultFinding :=
  (checkExpression stmtExpr).map
    (fun node => ⟨node, addVoidFixText stmtExpr stmtExprText⟩)

/-- The checker type carried by a fall-through node, `none` for the shapes
the traversal recurses into. -/
def fallThroughType : Expr → Option Ty
  | Expr.tsSatisfies ty _ => some ty
  | Expr.assignment ty _ _ => some ty
  | Expr.binary ty _ _ _ => some ty
  | Expr.leaf ty => some ty
  | _ => none

/-- A fall-through node whose checker type classifies other than `NONE`:
exactly the nodes `checkExpression` reports. -/
def isFlaggedLeaf (e : Expr) : Bool :=
  match fallThroughType e with
  | some ty => isResultType ty
  | none => false

mutual

/-- Specification-side description of the traversal: the leaf value
positions discovered, in depth-first order, by the recursion of section 4.2
of the spec (consequent before alternate, left before right, sequence
elements in order, nothing under a `void` unary). Used to state the
ordering guarantee; to be compared with `checkExpression`. -/
def dfsValueLeaves : Expr → List Expr
  | Expr.unary op argument =>
      if op = "void" then [] else dfsValueLeaves argument
  | Expr.conditional _ consequent alternate =>
      dfsValueLeaves consequent ++ dfsValueLeaves alternate
  | Expr.logical _ left right =>
      dfsValueLeaves left ++ dfsValueLeaves right
  | Expr.sequence expressions => dfsValueLeavesElements expressions
  | Expr.tsAs expression => dfsValueLeaves expression
  | Expr.tsNonNull expression => dfsValueLeaves expression
  | Expr.chain expression => dfsValueLeaves expression
  | Expr.tsSatisfies ty expression => [Expr.tsSatisfies ty expression]
  | Expr.assignment ty left right => [Expr.assignment ty left right]
  | Expr.binary ty op left right => [Expr.binary ty op left right]
  | Expr.leaf ty => [Expr.leaf ty]
termination_by structural e => e

/-- The leaf value positions of the elements of a sequence expression, in
order. -/
def dfsValueLeavesElements : List Expr → List Expr
  | [] => []
  | e :: rest => dfsValueLeaves e ++ dfsValueLeavesElements rest
termination_by structural es => es

end

/-! ## no-unsafe-unwrap rule -/

/-- The property or key node of a member expression or destructuring
pattern, as distinguished by `getStaticMemberName` and
`getDestructuredPropertyName`: an identifier, a string `Literal`, a
`Literal` whose value is not a string (number, boolean, ...), a
`TemplateLiteral` with its interpolation count and the `cooked` values of
its quasis (`cooked` is absent for invalid escapes), or any other
expression form. -/
inductive PropKeyNode where
  | identifier (name : String)
  | stringLit (value : String)
  | otherLit
  | templateLit (exprCount : Nat) (quasiCooked : List (Option String))
  | otherKey
deriving DecidableEq

/-- `quasi?.value.cooked ?? null` applied to the head of the quasis list. -/
def headCooked (quasiCooked : List (Option String)) : Option String :=
  match quasiCooked.head? with
  | some (some cooked) => some cooked
  | _ => none

/-- A `MemberExpression` node as the rule consumes it: the `computed` and
`optional` flags, the property node, the checker type of the receiver
(`checker.getTypeAtLocation` on `node.object`), whether the parent is a
`CallExpression` whose callee is this node (`getCallExpression` returning
non-null), and the source text of the node and of its property
(`sourceCode.getText`). -/
structure MemberExpression where
  computed : Bool
  optional : Bool
  property : PropKeyNode
  objectType : Ty
  isCallCallee : Bool
  memberText : String
  propertyText : String

/-- `getStaticMemberName` from no-unsafe-unwrap: a non-computed identifier
gives its name; a computed string literal gives its value; a computed
template literal with zero interpolations gives the cooked text of its first
quasi (or `null` when that is absent); anything else gives `null`. -/
def getStaticMemberName (node : MemberExpression) : Option String :=
  if !node.computed then
    match node.property with
    | PropKeyNode.identifier name => some name
    | _ => none
  else
    match node.property with
    | PropKeyNode.stringLit value => some value
    | PropKeyNode.templateLit 0 quasiCooked => headCooked quasiCooked
    | _ => none

/-- `BANNED_METHOD_NAMES` from no-unsafe-unwrap. -/
def BANNED_METHOD_NAMES : List String := ["unwrap", "unwrapErr", "expect", "expectErr"]
/-- `FIXABLE_OK_METHOD_NAMES` from no-unsafe-unwrap. -/
def FIXABLE_OK_METHOD_NAMES : List String := ["unwrap"]
/-- `FIXABLE_ERR_METHOD_NAMES` from no-unsafe-unwrap. -/
def FIXABLE_ERR_METHOD_NAMES : List String := ["unwrapErr"]

/-- The `oldSuffix` computed inside `getFixedMemberExpressionText`: the
suffix of the member text that spells the accessor, in bracketed form for a
computed access and dotted form otherwise, with the optional-chaining
marker. -/
def expectedAccessSuffix (node : MemberExpression) (method : String) : String :=
  if node.computed then
    (if node.optional then "?.[" else "[") ++ node.propertyText ++ "]"
  else
    (if node.optional then "?." else ".") ++ method

/-- `getFixedMemberExpressionText` from no-unsafe-unwrap: when the member
text ends with the expected accessor suffix, replace that suffix with a
direct field read (`.value` or `.error`, keeping `?.`); otherwise return
`null` and leave the source untouched. -/
def getFixedMemberExpressionText (node : MemberExpression) (method : String)
    (propertyName : String) : Option String :=
  let memberText := node.memberText
  let oldSuffix := expectedAccessSuffix node method
  if !(strEndsWith memberText oldSuffix) then none
  else
    let baseText := strDropRight memberText (strLength oldSuffix)
    some (baseText ++ (if node.optional then "?." else ".") ++ propertyName)

/-- The message identifiers of no-unsafe-unwrap. -/
inductive UnwrapMessageId where
  | UNSAFE_UNWRAP
  | UNWRAP_OK_VALUE
  | UNWRAP_ERR_ERROR
deriving DecidableEq

/-- One diagnostic of no-unsafe-unwrap: its message identifier and, when the
attached fix callback produced an edit, the replacement text for the whole
call expression (`fixer.replaceText(callExpression, fixedText)`); `none`
when no fix callback was attached or the callback returned `null`. -/
structure UnwrapReport where
  messageId : UnwrapMessageId
  fixedText : Option String
deriving DecidableEq

/-- The `MemberExpression` handler of no-unsafe-unwrap: skip unresolvable or
non-banned names and non-Result receivers; report `UNWRAP_OK_VALUE` with the
value-read fix for a call of `unwrap` on an `OK` receiver, `UNWRAP_ERR_ERROR`
with the error-read fix for a call of `unwrapErr` on an `ERR` receiver, and
`UNSAFE_UNWRAP` without a fix otherwise. -/
def noUnsafeUnwrapMemberExpression (node : MemberExpression) :
    Option UnwrapReport :=
  match getStaticMemberName node with
  | none => none
  | some method =>
    if !(BANNED_METHOD_NAMES.contains method) then none
    else if !(isResultType node.objectType) then none
    else
      let variant := getResultVariant node.objectType
      if node.isCallCallee ∧ variant = ResultVariant.OK
          ∧ FIXABLE_OK_METHOD_NAMES.contains method then
        some ⟨UnwrapMessageId.UNWRAP_OK_VALUE,
          getFixedMemberExpressionText node method "value"⟩
      else if node.isCallCallee ∧ variant = ResultVariant.ERR
          ∧ FIXABLE_ERR_METHOD_NAMES.contains method then
        some ⟨UnwrapMessageId.UNWRAP_ERR_ERROR,
          getFixedMemberExpressionText node method "error"⟩
      else
        some ⟨UnwrapMessageId.UNSAFE_UNWRAP, none⟩

/-- The syntactic context of the `ObjectPattern` holding a destructuring
property: a variable declarator, a function parameter, the left side of a
`for-of` loop, the left side of an `AssignmentExpression` (which carries the
checker type of the right-hand side), or anything else. -/
inductive PatternContext where
  | variableDeclarator
  | functionParameter
  | forOfLeft
  | assignmentLeft (rhsType : Ty)
  | otherContext

/-- A `Property` node inside a destructuring pattern as the rule consumes
it: whether the parent is an `ObjectPattern`, the `computed` flag, the key
node, the checker type at the pattern itself, and the pattern context. -/
structure DestructuringProperty where
  parentIsObjectPattern : Bool
  computed : Bool
  key : PropKeyNode
  patternType : Ty
  context : PatternContext

/-- `getDestructuredPropertyName` from no-unsafe-unwrap: a computed string
literal or zero-interpolation template gives its text; a non-computed
identifier or string literal gives its name; anything else (including
numeric literal keys and dynamic computed keys) gives `null`. -/
def getDestructuredPropertyName (node : DestructuringProperty) : Option String :=
  if node.computed then
    match node.key with
    | PropKeyNode.stringLit value => some value
    | PropKeyNode.templateLit 0 quasiCooked => headCooked quasiCooked
    | _ => none
  else
    match node.key with
    | PropKeyNode.identifier name => some name
    | PropKeyNode.stringLit value => some value
    | _ => none

/-- The node whose checker type the `Property` handler classifies: the
right-hand side for assignment destructuring (`({ unwrap } = result)`), the
pattern itself everywhere else. -/
def destructuredSourceType (node : DestructuringProperty) : Ty :=
  match node.context with
  | PatternContext.assignmentLeft rhsType => rhsType
  | _ => node.patternType

/-- The `Property` handler of no-unsafe-unwrap: only properties of an
`ObjectPattern` with a statically resolved banned name whose destructured
source classifies as a Result are reported, always as `UNSAFE_UNWRAP` and
never with a fix. -/
def noUnsafeUnwrapProperty (node : DestructuringProperty) :
    Option UnwrapReport :=
  if !node.parentIsObjectPattern then none
  else
    match getDestructuredPropertyName node with
    | none => none
    | some method =>
      if !(BANNED_METHOD_NAMES.contains method) then none
      else if !(isResultType (destructuredSourceType node)) then none
      else some ⟨UnwrapMessageId.UNSAFE_UNWRAP, none⟩

/-- A concrete type all of whose flags are stripped by `collectResultTypes`
(`any`, `unknown`, `never`, `null`, `undefined`, `void`). -/
def hasStrippedFlags : Ty → Bool
  | Ty.concrete flags _ => flags &&& STRIPPED_TYPE_FLAGS != 0
  | Ty.union _ => false

/-! ## Concrete host snapshots used by witnesses and counterexamples -/

/-- The `Ok` symbol as declared inside the antithrow package. -/
def okSymbol : Symb := ⟨"Ok", ["/repo/node_modules/antithrow/dist/result.d.ts"]⟩

/-- The `Err` symbol as declared inside the antithrow package. -/
def errSymbol : Symb := ⟨"Err", ["/repo/node_modules/antithrow/dist/result.d.ts"]⟩

/-- The `ResultAsync` symbol as declared inside the antithrow package. -/
def resultAsyncSymbol : Symb :=
  ⟨"ResultAsync", ["/repo/node_modules/antithrow/dist/result-async.d.ts"]⟩

/-- A user-defined class also named `Ok`, declared outside the antithrow
package. -/
def userOkSymbol : Symb := ⟨"Ok", ["/repo/src/my-outcome.ts"]⟩

/-- The checker type of an `Ok<T, E>` instantiation. -/
def okTy : Ty := Ty.concrete OBJECT_FLAG (some okSymbol)

/-- The checker type of an `Err<T, E>` instantiation. -/
def errTy : Ty := Ty.concrete OBJECT_FLAG (some errSymbol)

/-- The checker type of a `ResultAsync<T, E>` instantiation. -/
def resultAsyncTy : Ty := Ty.concrete OBJECT_FLAG (some resultAsyncSymbol)

/-- The checker type `undefined`. -/
def undefinedTy : Ty := Ty.concrete UNDEFINED_FLAG none

/-- The checker type `boolean`. -/
def boolTy : Ty := Ty.concrete BOOLEAN_FLAG none

/-- The checker type `number`. -/
def numberTy : Ty := Ty.concrete NUMBER_FLAG none

/-- The checker type `Result<T, E> = Ok<T, E> | Err<T, E>`. -/
def resultTy : Ty := Ty.union [okTy, errTy]

/-- The member expression of `ok(1).unwrap()`: the parser decodes the
unicode escape, so the ESTree identifier is named `unwrap`, while the source
text keeps the escape. The receiver `ok(1)` types as `Ok`. -/
def escapedUnwrapNode : MemberExpression :=
  { computed := false
    optional := false
    property := PropKeyNode.identifier "unwrap"
    objectType := okTy
    isCallCallee := true
    memberText := "ok(1).unw\\u0072ap"
    propertyText := "unw\\u0072ap" }

/-- The member expression of `ok(1).unwrap()` with an `Ok`-typed receiver. -/
def plainUnwrapNode : MemberExpression :=
  { computed := false
    optional := false
    property := PropKeyNode.identifier "unwrap"
    objectType := okTy
    isCallCallee := true
    memberText := "ok(1).unwrap"
    propertyText := "unwrap" }

/-- The member expression of `err("x").unwrapErr()` with an `Err`-typed
receiver. -/
def plainUnwrapErrNode : MemberExpression :=
  { computed := false
    optional := false
    property := PropKeyNode.identifier "unwrapErr"
    objectType := errTy
    isCallCallee := true
    memberText := "err(\"x\").unwrapErr"
    propertyText := "unwrapErr" }

/-- The destructuring property of `const { unwrap } = result` where
`result` types as `Result<number, string>`. -/
def destructuredUnwrapNode : DestructuringProperty :=
  { parentIsObjectPattern := true
    computed := false
    key := PropKeyNode.identifier "unwrap"
    patternType := resultTy
    context := PatternContext.variableDeclarator }

/-- The destructuring property of `({ unwrap } = result)` in assignment
position: the pattern node types as the binding target, the right-hand side
as `Result`. -/
def assignmentDestructuredUnwrapNode : DestructuringProperty :=
  { parentIsObjectPattern := true
    computed := false
    key := PropKeyNode.identifier "unwrap"
    patternType := Ty.concrete OBJECT_FLAG none
    context := PatternContext.assignmentLeft resultTy }

/-- The statement `cond ? ok(1) : err("x");`. -/
def ternaryStmtExpr : Expr :=
  Expr.conditional (Expr.leaf boolTy) (Expr.leaf okTy) (Expr.leaf errTy)

/-- The statement `(cond ? ok(1) : err("x")) satisfies unknown;`: the
satisfies node carries the type of its operand, the `Result` union of the
two branch types. -/
def satisfiesTernaryStmtExpr : Expr :=
  Expr.tsSatisfies resultTy ternaryStmtExpr

/-! ## Helper lemmas about the collection fold -/

theorem mem_addName {n m : String} {names : List String} :
    n ∈ addName m names ↔ n = m ∨ n ∈ names := by
  unfold addName
  split
  · rename_i h
    constructor
    · exact Or.inr
    · rintro (rfl | hn)
      · simpa using h
      · exact hn
  · simp [List.mem_append, or_comm]

mutual

theorem collect_hasNonResult_split : (t : Ty) → (c : ResultTypeCollection) →
    (collectResultTypes t c).hasNonResultMembers
      = (c.hasNonResultMembers
          || (collectResultTypes t ⟨false, []⟩).hasNonResultMembers)
  | Ty.union types, c => by
      simpa only [collectResultTypes] using collectMembers_hasNonResult_split types c
  | Ty.concrete flags symbol, c => by
      cases symbol with
      | none => simp only [collectResultTypes]; split <;> simp
      | some s =>
          simp only [collectResultTypes]
          split
          · simp
          · split <;> simp

theorem collectMembers_hasNonResult_split : (ts : List Ty) → (c : ResultTypeCollection) →
    (collectResultTypeMembers ts c).hasNonResultMembers
      = (c.hasNonResultMembers
          || (collectResultTypeMembers ts ⟨false, []⟩).hasNonResultMembers)
  | [], c => by simp [collectResultTypeMembers]
  | t :: rest, c => by
      simp only [collectResultTypeMembers]
      rw [collectMembers_hasNonResult_split rest (collectResultTypes t c),
        collect_hasNonResult_split t c,
        collectMembers_hasNonResult_split rest (collectResultTypes t ⟨false, []⟩)]
      cases c.hasNonResultMembers <;> simp

end

mutual

theorem collect_names_mem_split : (t : Ty) → (c : ResultTypeCollection) → (n : String) →
    (n ∈ (collectResultTypes t c).names
      ↔ n ∈ c.names ∨ n ∈ (collectResultTypes t ⟨false, []⟩).names)
  | Ty.union types, c, n => by
      simpa only [collectResultTypes] using collectMembers_names_mem_split types c n
  | Ty.concrete flags symbol, c, n => by
      cases symbol with
      | none => simp only [collectResultTypes]; split <;> simp
      | some s =>
          simp only [collectResultTypes]
          split
          · simp
          · split
            · simp only [mem_addName]
              simp only [List.not_mem_nil, or_false]
              tauto
            · simp

theorem collectMembers_names_mem_split : (ts : List Ty) → (c : ResultTypeCollection) → (n : String) →
    (n ∈ (collectResultTypeMembers ts c).names
      ↔ n ∈ c.names ∨ n ∈ (collectResultTypeMembers ts ⟨false, []⟩).names)
  | [], c, n => by simp [collectResultTypeMembers]
  | t :: rest, c, n => by
      simp only [collectResultTypeMembers]
      rw [collectMembers_names_mem_split rest (collectResultTypes t c) n,
        collect_names_mem_split t c n,
        collectMembers_names_mem_split rest (collectResultTypes t ⟨false, []⟩) n]
      tauto

end

theorem members_hasNonResult (ts : List Ty) (c : ResultTypeCollection) :
    (collectResultTypeMembers ts c).hasNonResultMembers
      = (c.hasNonResultMembers
          || ts.any (fun t => (collectResultTypes t ⟨false, []⟩).hasNonResultMembers)) := by
  induction ts generalizing c with
  | nil => simp [collectResultTypeMembers]
  | cons t rest ih =>
      simp only [collectResultTypeMembers, List.any_cons]
      rw [ih (collectResultTypes t c), collect_hasNonResult_split t c]
      cases c.hasNonResultMembers <;> simp

theorem members_names_mem (ts : List Ty) (c : ResultTypeCollection) (n : String) :
    n ∈ (collectResultTypeMembers ts c).names
      ↔ n ∈ c.names ∨ ∃ t ∈ ts, n ∈ (collectResultTypes t ⟨false, []⟩).names := by
  induction ts generalizing c with
  | nil => simp [collectResultTypeMembers]
  | cons t rest ih =>
      simp only [collectResultTypeMembers]
      rw [ih (collectResultTypes t c), collect_names_mem_split t c n]
      simp only [List.mem_cons]
      aesop

theorem variantOfCollection_eq_NONE (c : ResultTypeCollection) :
    variantOfCollection c = ResultVariant.NONE ↔ c.names = [] := by
  unfold variantOfCollection
  by_cases h1 : c.names.isEmpty = true
  · simp only [List.isEmpty_iff] at h1
    simp [h1]
  · rw [if_neg h1]
    simp only [List.isEmpty_iff] at h1
    split_ifs with h2 h3 h4 h5 <;> simp [h1]

theorem variantOfCollection_eq_OK (c : ResultTypeCollection) :
    variantOfCollection c = ResultVariant.OK
      ↔ c.names ≠ [] ∧ c.hasNonResultMembers = false ∧ ∀ n ∈ c.names, n = "Ok" := by
  unfold variantOfCollection
  by_cases h1 : c.names.isEmpty = true
  · rw [if_pos h1]
    simp only [List.isEmpty_iff] at h1
    simp [h1]
  · rw [if_neg h1]
    simp only [List.isEmpty_iff] at h1
    by_cases h2 : c.hasNonResultMembers = true
    · rw [if_pos h2]
      constructor
      · intro h; cases h
      · rintro ⟨-, hf, -⟩
        rw [h2] at hf
        cases hf
    · rw [if_neg h2]
      by_cases h3 : c.names.contains "ResultAsync" = true
      · rw [if_pos h3]
        constructor
        · intro h; cases h
        · rintro ⟨-, -, hall⟩
          have hra : ("ResultAsync" : String) = "Ok" := hall _ (by simpa using h3)
          exact absurd hra (by decide)
      · rw [if_neg h3]
        by_cases h4 :
            c.names.all (fun name => FIXABLE_OK_TYPE_NAMES.contains name) = true
        · rw [if_pos h4]
          simp only [List.all_eq_true] at h4
          constructor
          · intro _
            refine ⟨h1, by simpa using h2, fun n hn => ?_⟩
            simpa [FIXABLE_OK_TYPE_NAMES] using h4 n hn
          · intro _; rfl
        · rw [if_neg h4]
          have hnotall : ¬∀ n ∈ c.names, n = "Ok" := by
            intro hall
            refine h4 ?_
            simp only [List.all_eq_true]
            intro n hn
            simp [FIXABLE_OK_TYPE_NAMES, hall n hn]
          split
          · constructor
            · intro h; cases h
            · rintro ⟨-, -, hall⟩; exact absurd hall hnotall
          · constructor
            · intro h; cases h
            · rintro ⟨-, -, hall⟩; exact absurd hall hnotall

theorem variantOfCollection_mixed_of_resultAsync (c : ResultTypeCollection)
    (h : "ResultAsync" ∈ c.names) :
    variantOfCollection c = ResultVariant.MIXED := by
  unfold variantOfCollection
  have hne : ¬c.names.isEmpty = true := by
    simp only [List.isEmpty_iff]
    exact List.ne_nil_of_mem h
  rw [if_neg hne]
  by_cases h2 : c.hasNonResultMembers = true
  · rw [if_pos h2]
  · rw [if_neg h2, if_pos (by simpa using h : c.names.contains "ResultAsync" = true)]

/-- A stripped concrete member leaves the collection untouched. -/
theorem collect_stripped (flags : Nat) (symbol : Option Symb)
    (c : ResultTypeCollection) (h : flags &&& STRIPPED_TYPE_FLAGS ≠ 0) :
    collectResultTypes (Ty.concrete flags symbol) c = c := by
  simp [collectResultTypes, h]

/-! ## Claim theorems -/

/-- C2: a union one of whose members is the antithrow `ResultAsync` type
(not stripped, declared in the antithrow module) classifies `MIXED`, never
`OK` or `ERR`, whatever the other members are. -/
theorem classify_mixed_of_resultAsync_member
    (ms : List Ty) (m : Ty) (flags : Nat) (s : Symb)
    (hmem : m ∈ ms) (hm : m = Ty.concrete flags (some s))
    (hname : s.name = "ResultAsync")
    (hsym : isAntithrowResultTypeSymbol s = true)
    (hflags : flags &&& STRIPPED_TYPE_FLAGS = 0) :
    getResultVariant (Ty.union ms) = ResultVariant.MIXED
      ∧ getResultVariant (Ty.union ms) ≠ ResultVariant.OK
      ∧ getResultVariant (Ty.union ms) ≠ ResultVariant.ERR := by
  have hcoll : "ResultAsync" ∈ (collectResultTypes m ⟨false, []⟩).names := by
    subst hm
    simp [collectResultTypes, hflags, hsym, addName, hname]
  have hra :
      "ResultAsync" ∈ (collectResultTypes (Ty.union ms) ⟨false, []⟩).names := by
    simp only [collectResultTypes]
    exact (members_names_mem ms ⟨false, []⟩ "ResultAsync").mpr
      (Or.inr ⟨m, hmem, hcoll⟩)
  have hmix : getResultVariant (Ty.union ms) = ResultVariant.MIXED := by
    simp only [getResultVariant]
    exact variantOfCollection_mixed_of_resultAsync _ hra
  refine ⟨hmix, ?_, ?_⟩ <;> rw [hmix] <;> decide

/-- Witness for C2 at `Ok | ResultAsync`. -/
theorem classify_mixed_of_resultAsync_member_witness :
    getResultVariant (Ty.union [okTy, resultAsyncTy]) = ResultVariant.MIXED
      ∧ getResultVariant (Ty.union [okTy, resultAsyncTy]) ≠ ResultVariant.OK
      ∧ getResultVariant (Ty.union [okTy, resultAsyncTy]) ≠ ResultVariant.ERR :=
  classify_mixed_of_resultAsync_member [okTy, resultAsyncTy] resultAsyncTy
    OBJECT_FLAG resultAsyncSymbol
    (List.mem_cons_of_mem _ (List.mem_cons_self _ _))
    rfl rfl (by decide) (by decide)

/-- C5: stripped members (`any`, `unknown`, `never`, nullish) contribute
nothing to the collection, and a union whose members are each either
stripped or classifying `OK` (with at least one `OK` member) classifies
`OK`; `A | B` with both `OK` is the special case with no stripped member. -/
theorem classify_ok_union_with_stripped_members :
    (∀ (flags : Nat) (symbol : Option Symb) (c : ResultTypeCollection),
        flags &&& STRIPPED_TYPE_FLAGS ≠ 0 →
        collectResultTypes (Ty.concrete flags symbol) c = c)
    ∧ ∀ ms : List Ty,
        (∀ m ∈ ms,
          hasStrippedFlags m = true ∨ getResultVariant m = ResultVariant.OK) →
        (∃ m ∈ ms, getResultVariant m = ResultVariant.OK) →
        getResultVariant (Ty.union ms) = ResultVariant.OK := by
  constructor
  · exact collect_stripped
  · rintro ms hall ⟨m0, hm0, hok0⟩
    have hfacts : ∀ m ∈ ms,
        (collectResultTypes m ⟨false, []⟩).hasNonResultMembers = false
          ∧ ∀ n ∈ (collectResultTypes m ⟨false, []⟩).names, n = "Ok" := by
      intro m hm
      rcases hall m hm with hstrip | hok
      · cases m with
        | union ts => simp [hasStrippedFlags] at hstrip
        | concrete flags symbol =>
            have hf : flags &&& STRIPPED_TYPE_FLAGS ≠ 0 := by
              simpa [hasStrippedFlags] using hstrip
            rw [collect_stripped _ _ _ hf]
            exact ⟨rfl, by simp⟩
      · simp only [getResultVariant] at hok
        rcases (variantOfCollection_eq_OK _).mp hok with ⟨-, hnr, hnames⟩
        exact ⟨hnr, hnames⟩
    simp only [getResultVariant] at hok0
    rcases (variantOfCollection_eq_OK _).mp hok0 with ⟨hne0, -, hnames0⟩
    obtain ⟨n0, hn0⟩ := List.exists_mem_of_ne_nil _ hne0
    have hokmem : "Ok" ∈ (collectResultTypes m0 ⟨false, []⟩).names := by
      have := hnames0 n0 hn0
      rwa [this] at hn0
    simp only [getResultVariant, collectResultTypes]
    rw [variantOfCollection_eq_OK]
    refine ⟨?_, ?_, ?_⟩
    · exact List.ne_nil_of_mem
        ((members_names_mem ms ⟨false, []⟩ "Ok").mpr (Or.inr ⟨m0, hm0, hokmem⟩))
    · rw [members_hasNonResult]
      simp only [Bool.false_or]
      rw [List.any_eq_false]
      intro t ht
      simp [(hfacts t ht).1]
    · intro n hn
      rcases (members_names_mem ms ⟨false, []⟩ n).mp hn with hfalse | ⟨t, ht, hnt⟩
      · simp at hfalse
      · exact (hfacts t ht).2 n hnt

/-- Witness for C5: a stripped `undefined` member leaves the collection
untouched, and `Ok | undefined` classifies `OK` (the autofixable
Ok-or-undefined receiver). -/
theorem classify_ok_union_with_stripped_members_witness :
    collectResultTypes (Ty.concrete UNDEFINED_FLAG none) ⟨false, []⟩ = ⟨false, []⟩
      ∧ getResultVariant (Ty.union [okTy, undefinedTy]) = ResultVariant.OK :=
  ⟨classify_ok_union_with_stripped_members.1 UNDEFINED_FLAG none ⟨false, []⟩ (by decide),
   classify_ok_union_with_stripped_members.2 [okTy, undefinedTy]
     (by intro m hm
         rcases List.mem_cons.mp hm with rfl | hm
         · exact Or.inr (by decide)
         · rcases List.mem_cons.mp hm with rfl | hm
           · exact Or.inl (by decide)
           · simp at hm)
     ⟨okTy, List.mem_cons_self _ _, by decide⟩⟩

/-- C6: a non-union type that is not stripped and whose symbol is absent or
declared only in files outside the antithrow module classifies `NONE`, even
when the symbol is named `Ok`, `Err` or `ResultAsync`. -/
theorem classify_none_of_foreign_type
    (flags : Nat) (symbol : Option Symb)
    (hflags : flags &&& STRIPPED_TYPE_FLAGS = 0)
    (hforeign : ∀ s, symbol = some s →
      ∀ f ∈ s.declFileNames, fileIncludes f "antithrow" = false) :
    getResultVariant (Ty.concrete flags symbol) = ResultVariant.NONE := by
  simp only [getResultVariant]
  rw [variantOfCollection_eq_NONE]
  cases symbol with
  | none => simp [collectResultTypes, hflags]
  | some s =>
      have hs : isAntithrowResultTypeSymbol s = false := by
        unfold isAntithrowResultTypeSymbol
        have hany : s.declFileNames.any
            (fun f => fileIncludes f "antithrow") = false := by
          rw [List.any_eq_false]
          intro f hf
          simp [hforeign s rfl f hf]
        simp [hany]
      simp [collectResultTypes, hflags, hs]

/-- Witness for C6 at a user-defined class named `Ok` declared in
`/repo/src/my-outcome.ts`. -/
theorem classify_none_of_foreign_type_witness :
    getResultVariant (Ty.concrete OBJECT_FLAG (some userOkSymbol))
      = ResultVariant.NONE :=
  classify_none_of_foreign_type OBJECT_FLAG (some userOkSymbol) (by decide)
    (by intro s hs f hf
        cases Option.some.inj hs
        simp only [userOkSymbol, List.mem_singleton] at hf
        subst hf
        decide)

/-- C1 counterexample: for `ok(1).unwrap();` written with the unicode
escape `unwrap`, the key resolves statically to `unwrap`, the access is
the callee of a call, and the receiver classifies `OK`, yet the emitted
diagnostic carries no autofix (the fix callback returns `null` because the
source text does not end in `.unwrap`). The repository test suite records
the same behavior (`output: null`). -/
theorem unwrap_fix_missing_for_escaped_identifier :
    getStaticMemberName escapedUnwrapNode = some "unwrap"
      ∧ BANNED_METHOD_NAMES.contains "unwrap" = true
      ∧ escapedUnwrapNode.isCallCallee = true
      ∧ getResultVariant escapedUnwrapNode.objectType = ResultVariant.OK
      ∧ noUnsafeUnwrapMemberExpression escapedUnwrapNode
          = some ⟨UnwrapMessageId.UNWRAP_OK_VALUE, none⟩ := by
  refine ⟨rfl, rfl, rfl, by decide, by decide⟩

/-- C1 (amended): a member access with an unresolvable key or a `NONE`
receiver is never reported; a resolved banned name on a non-`NONE` receiver
produces exactly one diagnostic, which carries an autofix exactly when the
access is the callee of a call, the receiver and name pair is (`OK`,
`unwrap`) or (`ERR`, `unwrapErr`), and additionally the member source text
ends with the expected accessor suffix (otherwise the diagnostic degrades
to fix-less); when a fix is carried it rewrites the call to a direct
`.value` or `.error` read on the verbatim receiver text. -/
theorem unsafe_unwrap_member_report_and_fix_condition :
    (∀ node : MemberExpression, getStaticMemberName node = none →
        noUnsafeUnwrapMemberExpression node = none)
    ∧ (∀ node : MemberExpression,
        getResultVariant node.objectType = ResultVariant.NONE →
        noUnsafeUnwrapMemberExpression node = none)
    ∧ ∀ (node : MemberExpression) (method : String),
        getStaticMemberName node = some method →
        BANNED_METHOD_NAMES.contains method = true →
        getResultVariant node.objectType ≠ ResultVariant.NONE →
        ∃ r : UnwrapReport,
          noUnsafeUnwrapMemberExpression node = some r
          ∧ (r.fixedText.isSome = true ↔
              (node.isCallCallee = true
                ∧ ((getResultVariant node.objectType = ResultVariant.OK
                      ∧ method = "unwrap")
                    ∨ (getResultVariant node.objectType = ResultVariant.ERR
                      ∧ method = "unwrapErr"))
                ∧ strEndsWith node.memberText (expectedAccessSuffix node method)
                    = true))
          ∧ ∀ t, r.fixedText = some t →
              t = strDropRight node.memberText
                    (strLength (expectedAccessSuffix node method))
                  ++ (if node.optional then "?." else ".")
                  ++ (if method = "unwrap" then "value" else "error") := by
  refine ⟨?_, ?_, ?_⟩
  · intro node h
    simp [noUnsafeUnwrapMemberExpression, h]
  · intro node h
    cases hm : getStaticMemberName node with
    | none => simp [noUnsafeUnwrapMemberExpression, hm]
    | some method => simp [noUnsafeUnwrapMemberExpression, hm, isResultType, h]
  · intro node method hm hban hvar
    have hres : isResultType node.objectType = true := by
      simp [isResultType, hvar]
    simp only [noUnsafeUnwrapMemberExpression, hm, hban, Bool.not_true,
      Bool.false_eq_true, if_false, hres, if_true]
    by_cases h1 : node.isCallCallee = true
        ∧ getResultVariant node.objectType = ResultVariant.OK
        ∧ FIXABLE_OK_METHOD_NAMES.contains method = true
    · rw [if_pos h1]
      have hmethod : method = "unwrap" := by
        have hmm : method ∈ FIXABLE_OK_METHOD_NAMES := by simpa using h1.2.2
        simpa [FIXABLE_OK_METHOD_NAMES] using hmm
      refine ⟨_, rfl, ?_, ?_⟩
      · simp only [getFixedMemberExpressionText]
        by_cases hend :
            strEndsWith node.memberText (expectedAccessSuffix node method) = true
        · rw [if_neg (by simp [hend])]
          simp only [Option.isSome_some]
          exact iff_of_true (by trivial) ⟨h1.1, Or.inl ⟨h1.2.1, hmethod⟩, hend⟩
        · rw [if_pos (by rw [Bool.not_eq_true] at hend; simp [hend])]
          simp only [Option.isSome_none]
          constructor
          · intro h; cases h
          · rintro ⟨-, -, hend'⟩
            exact absurd hend' hend
      · intro t ht
        simp only [getFixedMemberExpressionText] at ht
        by_cases hend :
            strEndsWith node.memberText (expectedAccessSuffix node method) = true
        · rw [if_neg (by simp [hend]), Option.some.injEq] at ht
          rw [← ht, hmethod]
          simp
        · rw [if_pos (by rw [Bool.not_eq_true] at hend; simp [hend])] at ht
          cases ht
    · rw [if_neg h1]
      by_cases h2 : node.isCallCallee = true
          ∧ getResultVariant node.objectType = ResultVariant.ERR
          ∧ FIXABLE_ERR_METHOD_NAMES.contains method = true
      · rw [if_pos h2]
        have hmethod : method = "unwrapErr" := by
          have hmm : method ∈ FIXABLE_ERR_METHOD_NAMES := by simpa using h2.2.2
          simpa [FIXABLE_ERR_METHOD_NAMES] using hmm
        refine ⟨_, rfl, ?_, ?_⟩
        · simp only [getFixedMemberExpressionText]
          by_cases hend :
              strEndsWith node.memberText (expectedAccessSuffix node method) = true
          · rw [if_neg (by simp [hend])]
            simp only [Option.isSome_some]
            exact iff_of_true (by trivial) ⟨h2.1, Or.inr ⟨h2.2.1, hmethod⟩, hend⟩
          · rw [if_pos (by rw [Bool.not_eq_true] at hend; simp [hend])]
            simp only [Option.isSome_none]
            constructor
            · intro h; cases h
            · rintro ⟨-, -, hend'⟩
              exact absurd hend' hend
        · intro t ht
          simp only [getFixedMemberExpressionText] at ht
          by_cases hend :
              strEndsWith node.memberText (expectedAccessSuffix node method) = true
          · rw [if_neg (by simp [hend]), Option.some.injEq] at ht
            have hne : method ≠ "unwrap" := by
              rw [hmethod]; decide
            rw [← ht, if_neg hne, hmethod]
          · rw [if_pos (by rw [Bool.not_eq_true] at hend; simp [hend])] at ht
            cases ht
      · rw [if_neg h2]
        refine ⟨_, rfl, ?_, ?_⟩
        · simp only [Option.isSome_none]
          constructor
          · intro h; cases h
          · rintro ⟨hcall, hdisj, hend⟩
            rcases hdisj with ⟨hok, rfl⟩ | ⟨herr, rfl⟩
            · cases h1 ⟨hcall, hok, by decide⟩
            · cases h2 ⟨hcall, herr, by decide⟩
        · intro t ht
          simp at ht

/-- Witness for the amended C1: a dynamic computed access is skipped, a
non-Result receiver is skipped, and `ok(1).unwrap()` written plainly is
reported and autofixed. -/
theorem unsafe_unwrap_member_report_and_fix_condition_witness :
    noUnsafeUnwrapMemberExpression
        { computed := true, optional := false, property := PropKeyNode.otherKey,
          objectType := okTy, isCallCallee := true,
          memberText := "result[method]", propertyText := "method" } = none
      ∧ noUnsafeUnwrapMemberExpression
          { computed := false, optional := false,
            property := PropKeyNode.identifier "unwrap",
            objectType := numberTy, isCallCallee := true,
            memberText := "box.unwrap", propertyText := "unwrap" } = none
      ∧ ∃ r : UnwrapReport,
          noUnsafeUnwrapMemberExpression plainUnwrapNode = some r
          ∧ (r.fixedText.isSome = true ↔
              (plainUnwrapNode.isCallCallee = true
                ∧ ((getResultVariant plainUnwrapNode.objectType = ResultVariant.OK
                      ∧ "unwrap" = "unwrap")
                    ∨ (getResultVariant plainUnwrapNode.objectType = ResultVariant.ERR
                      ∧ "unwrap" = "unwrapErr"))
                ∧ strEndsWith plainUnwrapNode.memberText
                    (expectedAccessSuffix plainUnwrapNode "unwrap") = true))
          ∧ ∀ t, r.fixedText = some t →
              t = strDropRight plainUnwrapNode.memberText
                    (strLength (expectedAccessSuffix plainUnwrapNode "unwrap"))
                  ++ (if plainUnwrapNode.optional then "?." else ".")
                  ++ (if "unwrap" = "unwrap" then "value" else "error") :=
  ⟨unsafe_unwrap_member_report_and_fix_condition.1 _ rfl,
   unsafe_unwrap_member_report_and_fix_condition.2.1 _ (by decide),
   unsafe_unwrap_member_report_and_fix_condition.2.2 plainUnwrapNode "unwrap"
     rfl rfl (by decide)⟩

/-- C7: a banned accessor name extracted through an object-destructuring
pattern from a source classifying other than `NONE` is always reported
without an autofix, whatever the variant; for assignment destructuring the
classified type is the right-hand side of the assignment. -/
theorem destructured_banned_name_reported_without_fix
    (node : DestructuringProperty) (method : String)
    (hpat : node.parentIsObjectPattern = true)
    (hname : getDestructuredPropertyName node = some method)
    (hban : BANNED_METHOD_NAMES.contains method = true)
    (hvar : getResultVariant (destructuredSourceType node) ≠ ResultVariant.NONE) :
    noUnsafeUnwrapProperty node = some ⟨UnwrapMessageId.UNSAFE_UNWRAP, none⟩
      ∧ ∀ rhsType, node.context = PatternContext.assignmentLeft rhsType →
          destructuredSourceType node = rhsType := by
  constructor
  · have hres : isResultType (destructuredSourceType node) = true := by
      simp [isResultType, hvar]
    have hban' : method ∈ BANNED_METHOD_NAMES := by simpa using hban
    simp [noUnsafeUnwrapProperty, hpat, hname, hban', hres]
  · intro rhsType hctx
    simp [destructuredSourceType, hctx]

/-- Witness for C7: `const { unwrap } = result` and `({ unwrap } = result)`
with a `Result<number, string>` source are both reported without a fix. -/
theorem destructured_banned_name_reported_without_fix_witness :
    noUnsafeUnwrapProperty destructuredUnwrapNode
        = some ⟨UnwrapMessageId.UNSAFE_UNWRAP, none⟩
      ∧ noUnsafeUnwrapProperty assignmentDestructuredUnwrapNode
          = some ⟨UnwrapMessageId.UNSAFE_UNWRAP, none⟩ :=
  ⟨(destructured_banned_name_reported_without_fix destructuredUnwrapNode
      "unwrap" rfl rfl rfl (by decide)).1,
   (destructured_banned_name_reported_without_fix assignmentDestructuredUnwrapNode
      "unwrap" rfl rfl rfl (by decide)).1⟩

/-- C10: the extraction fix builder is total (it is a Lean function, hence
never throws) and degrades safely: it returns no edit exactly when the
member text does not end with the expected accessor suffix, any edit it
returns replaces only that suffix with the direct field read on the
verbatim receiver text, and a diagnostic emitted for a member whose suffix
cannot be isolated carries no fix. -/
theorem extraction_fix_degrades_safely :
    (∀ (node : MemberExpression) (method propertyName : String),
        getFixedMemberExpressionText node method propertyName = none
          ↔ strEndsWith node.memberText (expectedAccessSuffix node method)
              = false)
    ∧ (∀ (node : MemberExpression) (method propertyName t : String),
        getFixedMemberExpressionText node method propertyName = some t →
        t = strDropRight node.memberText
              (strLength (expectedAccessSuffix node method))
            ++ (if node.optional then "?." else ".") ++ propertyName)
    ∧ ∀ (node : MemberExpression) (r : UnwrapReport) (method : String),
        noUnsafeUnwrapMemberExpression node = some r →
        getStaticMemberName node = some method →
        strEndsWith node.memberText (expectedAccessSuffix node method) = false →
        r.fixedText = none := by
  refine ⟨?_, ?_, ?_⟩
  · intro node method propertyName
    simp only [getFixedMemberExpressionText]
    by_cases hend :
        strEndsWith node.memberText (expectedAccessSuffix node method) = true
    · rw [if_neg (by simp [hend])]
      simp [hend]
    · rw [if_pos (by rw [Bool.not_eq_true] at hend; simp [hend])]
      rw [Bool.not_eq_true] at hend
      simp [hend]
  · intro node method propertyName t ht
    simp only [getFixedMemberExpressionText] at ht
    by_cases hend :
        strEndsWith node.memberText (expectedAccessSuffix node method) = true
    · rw [if_neg (by simp [hend]), Option.some.injEq] at ht
      exact ht.symm
    · rw [if_pos (by rw [Bool.not_eq_true] at hend; simp [hend])] at ht
      cases ht
  · intro node r method hrep hname hend
    have hfix : ∀ pn : String, getFixedMemberExpressionText node method pn = none := by
      intro pn
      simp only [getFixedMemberExpressionText]
      rw [if_pos (by simp [hend])]
    simp only [noUnsafeUnwrapMemberExpression, hname] at hrep
    by_cases hban : BANNED_METHOD_NAMES.contains method = true
    · simp only [hban, Bool.not_true, Bool.false_eq_true, if_false] at hrep
      by_cases hres : isResultType node.objectType = true
      · simp only [hres, Bool.not_true, Bool.false_eq_true, if_false] at hrep
        split at hrep
        · obtain rfl := Option.some.inj hrep
          exact hfix "value"
        · split at hrep
          · obtain rfl := Option.some.inj hrep
            exact hfix "error"
          · obtain rfl := Option.some.inj hrep
            rfl
      · rw [Bool.not_eq_true] at hres
        rw [if_pos (by rw [hres]; rfl)] at hrep
        cases hrep
    · rw [Bool.not_eq_true] at hban
      rw [if_pos (by rw [hban]; rfl)] at hrep
      cases hrep

/-- Witness for C10: the escaped `unwrap` member yields no edit, the
plain `ok(1).unwrap` edit replaces only the suffix, and the diagnostic for
the escaped member carries no fix. -/
theorem extraction_fix_degrades_safely_witness :
    getFixedMemberExpressionText escapedUnwrapNode "unwrap" "value" = none
      ∧ "ok(1).value"
          = strDropRight plainUnwrapNode.memberText
              (strLength (expectedAccessSuffix plainUnwrapNode "unwrap"))
            ++ (if plainUnwrapNode.optional then "?." else ".") ++ "value"
      ∧ (⟨UnwrapMessageId.UNWRAP_OK_VALUE, none⟩ : UnwrapReport).fixedText = none :=
  ⟨(extraction_fix_degrades_safely.1 escapedUnwrapNode "unwrap" "value").mpr
      (by decide),
   extraction_fix_degrades_safely.2.1 plainUnwrapNode "unwrap" "value"
      "ok(1).value" (by decide),
   extraction_fix_degrades_safely.2.2 escapedUnwrapNode
      ⟨UnwrapMessageId.UNWRAP_OK_VALUE, none⟩ "unwrap" (by decide) rfl (by decide)⟩

/-- C3 counterexample: the statement `(cond ? ok(1) : err("x")) satisfies T;`
produces one finding on the whole satisfies node, not the two findings of
its operand: `checkExpression` has no case for `TSSatisfiesExpression`, so
the satisfies node is treated as a leaf instead of recursing. -/
theorem satisfies_statement_not_recursed :
    checkExpression satisfiesTernaryStmtExpr ≠ checkExpression ternaryStmtExpr
      ∧ (checkExpression satisfiesTernaryStmtExpr).length = 1
      ∧ (checkExpression ternaryStmtExpr).length = 2 :=
  ⟨fun h => absurd (congrArg List.length h) (by decide), by decide, by decide⟩

/-- C3 (amended): the traversal recurses through non-discard unary
operators, non-null assertions, `as` type-assertions and optional-chaining
wrappers, adopting the operand findings unchanged; `satisfies` expressions
are not recursed into — they are leaf value positions, reported themselves
exactly when their own type classifies other than `NONE`. -/
theorem traversal_pass_through_shapes
    (E : Expr) (op : String) (ty : Ty) (hop : op ≠ "void") :
    checkExpression (Expr.unary op E) = checkExpression E
      ∧ checkExpression (Expr.tsNonNull E) = checkExpression E
      ∧ checkExpression (Expr.tsAs E) = checkExpression E
      ∧ checkExpression (Expr.chain E) = checkExpression E
      ∧ checkExpression (Expr.tsSatisfies ty E)
          = (if isResultType ty = true then [Expr.tsSatisfies ty E] else []) := by
  refine ⟨?_, rfl, rfl, rfl, rfl⟩
  simp [checkExpression, hop]

/-- Witness for the amended C3 with the `!` operator on an `Ok`-typed
leaf. -/
theorem traversal_pass_through_shapes_witness :
    checkExpression (Expr.unary "!" (Expr.leaf okTy))
        = checkExpression (Expr.leaf okTy)
      ∧ checkExpression (Expr.tsNonNull (Expr.leaf okTy))
          = checkExpression (Expr.leaf okTy)
      ∧ checkExpression (Expr.tsAs (Expr.leaf okTy))
          = checkExpression (Expr.leaf okTy)
      ∧ checkExpression (Expr.chain (Expr.leaf okTy))
          = checkExpression (Expr.leaf okTy)
      ∧ checkExpression (Expr.tsSatisfies okTy (Expr.leaf okTy))
          = (if isResultType okTy = true
              then [Expr.tsSatisfies okTy (Expr.leaf okTy)] else []) :=
  traversal_pass_through_shapes (Expr.leaf okTy) "!" okTy (by decide)

/-- C4: the discard autofix always wraps the full statement expression in
`void `, adding parentheses exactly for sequence, assignment, conditional,
logical, binary, `as` and satisfies shapes; `a, b;` becomes `void (a, b);`
and `x.map(f);` becomes `void x.map(f);`. -/
theorem discard_fix_wraps_statement :
    (∀ e : Expr, needsParentheses e = true ↔
        ((∃ es, e = Expr.sequence es)
          ∨ (∃ ty l r, e = Expr.assignment ty l r)
          ∨ (∃ t c a, e = Expr.conditional t c a)
          ∨ (∃ op l r, e = Expr.logical op l r)
          ∨ (∃ ty op l r, e = Expr.binary ty op l r)
          ∨ (∃ x, e = Expr.tsAs x)
          ∨ (∃ ty x, e = Expr.tsSatisfies ty x)))
    ∧ noUnusedResultStatement (Expr.sequence [Expr.leaf okTy, Expr.leaf numberTy]) "a, b"
        = [⟨Expr.leaf okTy, "void (a, b)"⟩]
    ∧ noUnusedResultStatement (Expr.leaf resultTy) "x.map(f)"
        = [⟨Expr.leaf resultTy, "void x.map(f)"⟩]
    ∧ ∀ (s : Expr) (text : String),
        (noUnusedResultStatement s text).all
          (fun f => f.suggestionText == addVoidFixText s text) = true := by
  refine ⟨?_, rfl, rfl, ?_⟩
  · intro e
    cases e <;> simp [needsParentheses]
  · intro s text
    rw [List.all_eq_true]
    intro f hf
    simp only [noUnusedResultStatement] at hf
    rcases List.mem_map.mp hf with ⟨n, -, rfl⟩
    exact beq_self_eq_true _

/-- Shared helper for C8: a fall-through node is reported exactly when its
carried type classifies other than `NONE`. -/
theorem checkExpression_fallThrough (e : Expr) (ty : Ty)
    (h : fallThroughType e = some ty) :
    checkExpression e = (if isResultType ty = true then [e] else []) := by
  cases e <;> simp [fallThroughType] at h <;> subst h <;> rfl

mutual

/-- Shared helper for C8: the traversal reports exactly the flagged leaf
value positions, in depth-first order. -/
theorem checkExpression_eq_filtered_leaves : (e : Expr) →
    checkExpression e = (dfsValueLeaves e).filter isFlaggedLeaf
  | Expr.unary op a => by
      by_cases h : op = "void"
      · simp [checkExpression, dfsValueLeaves, h]
      · simp [checkExpression, dfsValueLeaves, h,
          checkExpression_eq_filtered_leaves a]
  | Expr.conditional t c a => by
      simp [checkExpression, dfsValueLeaves, List.filter_append,
        checkExpression_eq_filtered_leaves c, checkExpression_eq_filtered_leaves a]
  | Expr.logical op l r => by
      simp [checkExpression, dfsValueLeaves, List.filter_append,
        checkExpression_eq_filtered_leaves l, checkExpression_eq_filtered_leaves r]
  | Expr.sequence es => by
      simp [checkExpression, dfsValueLeaves, checkSequence_eq_filtered_leaves es]
  | Expr.tsAs x => by
      simp [checkExpression, dfsValueLeaves, checkExpression_eq_filtered_leaves x]
  | Expr.tsNonNull x => by
      simp [checkExpression, dfsValueLeaves, checkExpression_eq_filtered_leaves x]
  | Expr.chain x => by
      simp [checkExpression, dfsValueLeaves, checkExpression_eq_filtered_leaves x]
  | Expr.tsSatisfies ty x => by
      simp [checkExpression, dfsValueLeaves, List.filter_cons, isFlaggedLeaf,
        fallThroughType]
  | Expr.assignment ty l r => by
      simp [checkExpression, dfsValueLeaves, List.filter_cons, isFlaggedLeaf,
        fallThroughType]
  | Expr.binary ty op l r => by
      simp [checkExpression, dfsValueLeaves, List.filter_cons, isFlaggedLeaf,
        fallThroughType]
  | Expr.leaf ty => by
      simp [checkExpression, dfsValueLeaves, List.filter_cons, isFlaggedLeaf,
        fallThroughType]

theorem checkSequence_eq_filtered_leaves : (es : List Expr) →
    checkSequenceElements es = (dfsValueLeavesElements es).filter isFlaggedLeaf
  | [] => rfl
  | e :: rest => by
      simp [checkSequenceElements, dfsValueLeavesElements, List.filter_append,
        checkExpression_eq_filtered_leaves e, checkSequence_eq_filtered_leaves rest]

end

/-- C8: `cond ? A : B;` with both branches in leaf position and classifying
other than `NONE` produces exactly two diagnostics, consequent first; in
general the diagnostics of a statement are exactly the flagged leaf value
positions of the depth-first traversal, in traversal order. -/
theorem ternary_two_diagnostics_in_dfs_order :
    (∀ (test A B : Expr) (tyA tyB : Ty),
        fallThroughType A = some tyA → fallThroughType B = some tyB →
        isResultType tyA = true → isResultType tyB = true →
        checkExpression (Expr.conditional test A B) = [A, B])
    ∧ ∀ e : Expr, checkExpression e = (dfsValueLeaves e).filter isFlaggedLeaf := by
  constructor
  · intro t A B tyA tyB hA hB hrA hrB
    have h1 := checkExpression_fallThrough A tyA hA
    have h2 := checkExpression_fallThrough B tyB hB
    rw [show checkExpression (Expr.conditional t A B)
          = checkExpression A ++ checkExpression B from rfl,
      h1, h2, if_pos hrA, if_pos hrB]
    rfl
  · exact checkExpression_eq_filtered_leaves

/-- Witness for C8 at `cond ? ok(1) : err("x");`: two diagnostics, the
consequent before the alternate. -/
theorem ternary_two_diagnostics_in_dfs_order_witness :
    checkExpression ternaryStmtExpr = [Expr.leaf okTy, Expr.leaf errTy] :=
  ternary_two_diagnostics_in_dfs_order.1 (Expr.leaf boolTy) (Expr.leaf okTy)
    (Expr.leaf errTy) okTy errTy rfl rfl (by decide) (by decide)

/-- C9: a `void E;` statement reports nothing, whatever `E` classifies, and
re-running the check on the result of the ADD_VOID fix (a `void` unary over
the original statement expression) reports nothing, so the fix round
trips. -/
theorem void_statement_reports_nothing :
    ∀ (e : Expr) (stmtText : String),
      checkExpression (Expr.unary "void" e) = []
        ∧ noUnusedResultStatement (Expr.unary "void" e) stmtText = []
        ∧ checkExpression (addVoidFixResult e) = [] := by
  intro e stmtText
  exact ⟨rfl, rfl, rfl⟩

end Antithrow
